import Mathlib

/-
  Verification development for the parlar realtime voice client
  (src/src/main.rs).  The definitions below are a shallow embedding of the
  turn-taking core: the peak level meter, the playback ring buffer (a
  VecDeque of i16 samples), the mic onset gate, and the inbound-event
  dispatch loop of `main` together with the response timer tasks it spawns.

  Modelling conventions:
  - i16 samples are embedded as `Int` (range side conditions stated where
    they matter); f32 loudness values are embedded as exact rationals `ℚ`.
    The only f32 operations the embedded code performs are `a / 32767.0`
    with `0 ≤ a ≤ 32767` an integer, `.min(1.0)`, and order comparisons;
    on these inputs IEEE f32 arithmetic is exact or order-faithful, so the
    rational model is faithful for the properties proved here.
  - `Instant` timestamps are `Nat` milliseconds; `now.duration_since(t)`
    becomes truncated subtraction `now - t` (Instant is monotone, so the
    recorded timestamp never exceeds `now` in a real run).
  - The tokio task spawned by the `input_audio_buffer.committed` handler
    (sleep, then check the flags and maybe emit `response.create`) is
    modelled by the pseudo-event `Event.timerFire`, whose handler is the
    post-sleep body of that task; the committed handler itself reports the
    delay it scheduled in `Step.timers`.
  - Rust `String::to_lowercase` / `str::contains` / `starts_with` /
    `ends_with` are modelled over `List Char`; the keywords involved are
    pure ASCII, where `Char.toLower` agrees with the Rust lowering.
-/

namespace Parlar

/-- The `State` struct of main.rs (meter fields `mic_level`, `spk_level`,
`mic_bytes`, `spk_bytes` are omitted: no claim mentions them and no handler
below reads them).  `last_user_part` embeds the source field
`last_user_partial` (renamed; same role: accumulating incremental
transcript). -/
structure State where
  last_user : String := ""
  last_assistant : String := ""
  response_active : Bool := false
  response_inflight : Bool := false
  last_assistant_item_id : Option String := none
  last_cancel_at : Option Nat := none
  last_user_part : String := ""
deriving DecidableEq, Repr

/-- wrapping_abs on i16, embedded on Int: the absolute value, except that
i16::MIN (-32768) maps to itself (two's-complement wrap). -/
def wrappingAbs16 (s : Int) : Int :=
  if s = -32768 then -32768 else |s|

/-- One iteration of the peak loop of `chunk_peak_level_i16`:
`let a = s.wrapping_abs(); if a > peak { peak = a }`. -/
def peakStep (p s : Int) : Int :=
  if p < wrappingAbs16 s then wrappingAbs16 s else p

/-- The peak-accumulation loop of `chunk_peak_level_i16`, starting from 0. -/
def peakFold (samples : List Int) : Int :=
  samples.foldl peakStep 0

/-- fn chunk_peak_level_i16 (main.rs lines 57-69): 0.0 on empty input,
otherwise `(peak as f32 / i16::MAX as f32).min(1.0)` with peak the
wrapping-abs maximum. -/
def chunk_peak_level_i16 (samples : List Int) : ℚ :=
  if samples.isEmpty then 0
  else min ((peakFold samples : ℚ) / 32767) 1

/-- Producer side of the playback ring buffer: `rb.extend(samples)` in the
response.audio.delta handler. -/
def pushSamples (buf : List Int) (samples : List Int) : List Int :=
  buf ++ samples

/-- `q.clear()` on the playback ring buffer (interruption paths). -/
def clearBuf (_buf : List Int) : List Int :=
  []

/-- Consumer side of the playback ring buffer: the I16 output callback
fills each of the `n` output slots with `buf.pop_front().unwrap_or(0)`
(main.rs lines 267-280).  Returns the played samples and the remaining
buffer. -/
def pull : List Int → Nat → List Int × List Int
  | buf, 0 => ([], buf)
  | [], n + 1 =>
    let r := pull [] n
    (0 :: r.1, r.2)
  | x :: xs, n + 1 =>
    let r := pull xs n
    (x :: r.1, r.2)

/-- Configuration read from the environment at startup, with the source
defaults (main.rs lines 86-108). -/
structure Config where
  onset_peak : ℚ := mkRat 22 100
  onset_min_chunks : Nat := 2
  cancel_cooldown_ms : Nat := 400
  resp_delay_short_ms : Nat := 200
  resp_delay_long_ms : Nat := 700
deriving DecidableEq, Repr

def defaultCfg : Config := {}

/-- One iteration of the mic-forwarding thread's gate (main.rs lines
409-419): while the assistant is speaking, a chunk whose peak reaches
`onset_peak` increments `loud_consecutive`, otherwise the counter resets;
the chunk is forwarded unless `loud_consecutive < onset_min_chunks`
(`continue`).  While not speaking the counter resets and the chunk is
forwarded unconditionally.  Returns (forwarded?, new counter). -/
def gateStep (cfg : Config) (speaking : Bool) (ctr : Nat) (peak : ℚ) :
    Bool × Nat :=
  if speaking then
    let ctr' := if cfg.onset_peak ≤ peak then ctr + 1 else 0
    (!decide (ctr' < cfg.onset_min_chunks), ctr')
  else
    (true, 0)

/-- The gate folded over a sequence of (speaking, peak) chunks, collecting
the forwarded? decision for each chunk and the final counter. -/
def gateRun (cfg : Config) (ctr : Nat) :
    List (Bool × ℚ) → List Bool × Nat
  | [] => ([], ctr)
  | c :: cs =>
    let r := gateStep cfg c.1 ctr c.2
    let rest := gateRun cfg r.2 cs
    (r.1 :: rest.1, rest.2)

/-- Outbound commands the event handlers emit (the JSON messages
`response.create`, `response.cancel`, `conversation.item.truncate`). -/
inductive Cmd
  | createResponse
  | cancelResponse
  | truncateItem (item_id : String) (content_index : Nat) (audio_end_ms : Nat)
deriving DecidableEq, Repr

/-- Inbound events of the receiver loop's match (main.rs lines 495-670),
plus `timerFire` for the expiry of a scheduled response timer (the body of
the task spawned at lines 518-525).  Payload `Option`s mirror the
`as_str()` presence checks of the source; `audioDelta` carries the decoded
i16 samples (a delta that is absent or fails base64 decode does nothing,
like `unknown`). -/
inductive Event
  | sessionCreated
  | error (code : String) (msg : String)
  | bufferCommitted
  | timerFire
  | outputItemAdded (id : Option String)
  | itemCreated (role : String) (id : Option String) (content : Option String)
  | audioDelta (samples : List Int)
  | audioDone
  | textDelta (t : String)
  | textDone
  | responseDone
  | speechStarted
  | transcriptionCompleted (t : Option String)
  | transcriptionDelta (t : Option String)
  | unknown
deriving DecidableEq, Repr

/-- Whole-system state: the shared `State` and the playback ring buffer
`spk_buf`. -/
structure Sys where
  st : State
  spk : List Int
deriving DecidableEq, Repr

/-- Result of handling one inbound event: the new system state, the
outbound commands sent (in order), the response-timer delays scheduled,
and the error lines surfaced to the user (eprintln). -/
structure Step where
  sys : Sys
  cmds : List Cmd := []
  timers : List Nat := []
  errs : List (String × String) := []
deriving DecidableEq, Repr

/-- Substring search helper: does `pat` occur (contiguously) in the list? -/
def containsAux (pat : List Char) : List Char → Bool
  | [] => List.isPrefixOf pat []
  | c :: cs => List.isPrefixOf pat (c :: cs) || containsAux pat cs

/-- Rust str::contains with a string pattern (substring search). -/
def strContains (s pat : String) : Bool :=
  containsAux pat.toList s.toList

/-- Rust str::starts_with with a string pattern. -/
def strStartsWith (s pat : String) : Bool :=
  List.isPrefixOf pat.toList s.toList

/-- Rust str::ends_with (used with single-char patterns in the source). -/
def strEndsWith (s pat : String) : Bool :=
  List.isSuffixOf pat.toList s.toList

/-- Rust String::to_lowercase (the source only matches ASCII keywords, on
which Char.toLower agrees with the Unicode lowering). -/
def strToLower (s : String) : String :=
  String.mk (s.toList.map Char.toLower)

/-- The cooldown check of the transcription.delta handler (main.rs lines
639-642): true when no cancel was ever issued, else when
`now.duration_since(t) >= cancel_cooldown_ms`. -/
def cooldownOk (cfg : Config) (now : Nat) : Option Nat → Bool
  | none => true
  | some t => decide (cfg.cancel_cooldown_ms ≤ now - t)

/-- The keyword match of the transcription.delta handler (main.rs lines
644-648), applied to the lower-cased accumulated partial text. -/
def hotMatch (text_lc : String) : Bool :=
  strContains text_lc " stop" || strStartsWith text_lc "stop" ||
  strContains text_lc " wait" || strContains text_lc " hold on" ||
  strContains text_lc " hey"

/-- The receiver loop's event dispatch (main.rs lines 495-670), one event
at a time, plus the timer-expiry body as `timerFire`.  `now` is the value
`Instant::now()` would read while this event is handled. -/
def handleEvent (cfg : Config) (now : Nat) (s : Sys) : Event → Step
  | .sessionCreated => { sys := s }
  | .unknown => { sys := s }
  | .error code msg =>
    if code ≠ "response_cancel_not_active" then
      { sys := s, errs := [(code, msg)] }
    else
      { sys := s }
  | .bufferCommitted =>
    let u := s.st.last_user
    let delay :=
      if strEndsWith u "." || strEndsWith u "!" || strEndsWith u "?" then
        cfg.resp_delay_short_ms
      else
        cfg.resp_delay_long_ms
    { sys := s, timers := [delay] }
  | .timerFire =>
    if !s.st.response_inflight && !s.st.response_active then
      { sys := { s with st := { s.st with response_inflight := true } },
        cmds := [Cmd.createResponse] }
    else
      { sys := s }
  | .outputItemAdded id =>
    match id with
    | some i =>
      { sys := { s with st := { s.st with last_assistant_item_id := some i } } }
    | none => { sys := s }
  | .itemCreated role id content =>
    if role = "assistant" then
      match id with
      | some i =>
        { sys := { s with st := { s.st with last_assistant_item_id := some i } } }
      | none => { sys := s }
    else if role = "user" then
      match content with
      | some t => { sys := { s with st := { s.st with last_user := t } } }
      | none => { sys := s }
    else
      { sys := s }
  | .audioDelta samples =>
    { sys := { st := { s.st with response_active := true },
               spk := pushSamples s.spk samples } }
  | .audioDone =>
    { sys := { s with st :=
        { s.st with response_active := false, response_inflight := false } } }
  | .textDelta t =>
    { sys := { s with st :=
        { s.st with last_assistant := s.st.last_assistant ++ t } } }
  | .textDone =>
    { sys := { s with st := { s.st with response_inflight := false } } }
  | .responseDone =>
    { sys := { s with st :=
        { s.st with response_active := false, response_inflight := false } } }
  | .speechStarted =>
    if s.st.response_active || s.st.response_inflight then
      { sys := { st := { s.st with response_active := false,
                                   response_inflight := false,
                                   last_cancel_at := some now },
                 spk := [] },
        cmds := Cmd.cancelResponse ::
          (match s.st.last_assistant_item_id with
           | some i => [Cmd.truncateItem i 0 0]
           | none => []) }
    else
      { sys := s }
  | .transcriptionCompleted t =>
    match t with
    | some tr =>
      { sys := { s with st := { s.st with last_user := tr, last_user_part := "" } } }
    | none => { sys := s }
  | .transcriptionDelta d =>
    match d with
    | none => { sys := s }
    | some dt =>
      let p := s.st.last_user_part ++ dt
      let speaking := s.st.response_active || s.st.response_inflight
      let cok := cooldownOk cfg now s.st.last_cancel_at
      let contains_hot := hotMatch (strToLower p)
      if speaking && cok && contains_hot then
        { sys := { st := { s.st with last_user_part := "",
                                     response_active := false,
                                     response_inflight := false,
                                     last_cancel_at := some now },
                   spk := [] },
          cmds := Cmd.cancelResponse ::
            (match s.st.last_assistant_item_id with
             | some i => [Cmd.truncateItem i 0 0]
             | none => []) }
      else
        { sys := { s with st := { s.st with last_user_part := p } } }

/-- The initial system state: `State::default()` and an empty ring
buffer. -/
def initSys : Sys := { st := {}, spk := [] }

/-- State reached after one timed event. -/
def runStep (cfg : Config) (s : Sys) (te : Nat × Event) : Sys :=
  (handleEvent cfg te.1 s te.2).sys

/-- All outbound commands emitted while processing a timed event list. -/
def runCmds (cfg : Config) (s : Sys) : List (Nat × Event) → List Cmd
  | [] => []
  | te :: tes =>
    (handleEvent cfg te.1 s te.2).cmds ++ runCmds cfg (runStep cfg s te) tes

/-- Run instrumented with an "inflight was ever true" flag: the flag is
sampled in the start state and after every event. -/
def histRun (cfg : Config) (p : Sys × Bool) : List (Nat × Event) → Sys × Bool
  | [] => p
  | te :: tes =>
    let s' := runStep cfg p.1 te
    histRun cfg (s', p.2 || s'.st.response_inflight) tes

def isAudioDelta : Event → Bool
  | .audioDelta _ => true
  | _ => false

/-- Every audio-delta event in the list arrives while a response is
inflight or active (i.e. the audio was solicited). -/
def guardedB (cfg : Config) (s : Sys) : List (Nat × Event) → Bool
  | [] => true
  | te :: tes =>
    (!isAudioDelta te.2 || (s.st.response_inflight || s.st.response_active)) &&
    guardedB cfg (runStep cfg s te) tes

/-! Helper lemmas -/

theorem pull_nil (n : Nat) : pull ([] : List Int) n = (List.replicate n 0, []) := by
  induction n with
  | zero => rfl
  | succ n ih => simp [pull, ih, List.replicate_succ]

theorem pull_take : ∀ (buf : List Int) (n : Nat), n ≤ buf.length →
    (pull buf n).1 = buf.take n := by
  intro buf
  induction buf with
  | nil =>
    intro n h
    simp only [List.length_nil, Nat.le_zero] at h
    subst h
    rfl
  | cons x xs ih =>
    intro n h
    cases n with
    | zero => rfl
    | succ n =>
      simp only [pull, List.take_succ_cons, List.cons.injEq, true_and]
      exact ih n (by simpa using h)

theorem le_peakStep (p s : Int) : p ≤ peakStep p s := by
  unfold peakStep
  split <;> omega

theorem wrapping_le_peakStep (p s : Int) : wrappingAbs16 s ≤ peakStep p s := by
  unfold peakStep
  split <;> omega

theorem le_foldl_peak : ∀ (l : List Int) (p : Int), p ≤ l.foldl peakStep p := by
  intro l
  induction l with
  | nil => intro p; simp
  | cons x xs ih =>
    intro p
    rw [List.foldl_cons]
    exact le_trans (le_peakStep p x) (ih (peakStep p x))

theorem mem_le_foldl_peak : ∀ (l : List Int) (p s : Int), s ∈ l →
    wrappingAbs16 s ≤ l.foldl peakStep p := by
  intro l
  induction l with
  | nil => intro p s h; cases h
  | cons x xs ih =>
    intro p s h
    rw [List.foldl_cons]
    rcases List.mem_cons.mp h with h1 | h2
    · subst h1
      exact le_trans (wrapping_le_peakStep p s) (le_foldl_peak xs _)
    · exact ih _ s h2

theorem peakFold_nonneg (l : List Int) : 0 ≤ peakFold l :=
  le_foldl_peak l 0

/-! Claim theorems -/

/-- C6: for the playback ring buffer, pull(n) right after push_samples(s)
with len(s) ≥ n on an empty buffer returns the first n elements of s in
FIFO order; pull(n) on an empty buffer returns n zero samples; clear()
followed by any pull(n) with no intervening push returns all zeros. -/
theorem ring_buffer_fifo_zero_fill :
    (∀ (s : List Int) (n : Nat), n ≤ s.length →
      (pull (pushSamples [] s) n).1 = s.take n)
    ∧ (∀ n : Nat, (pull ([] : List Int) n).1 = List.replicate n 0)
    ∧ (∀ (buf : List Int) (n : Nat),
      (pull (clearBuf buf) n).1 = List.replicate n 0) := by
  refine ⟨?_, ?_, ?_⟩
  · intro s n h
    have : pushSamples [] s = s := by simp [pushSamples]
    rw [this]
    exact pull_take s n h
  · intro n
    rw [pull_nil]
  · intro buf n
    unfold clearBuf
    rw [pull_nil]

/-- Witness for C6 at concrete input: pushing [5,6,7] into the empty
buffer and pulling 2 plays [5,6]. -/
theorem ring_buffer_fifo_zero_fill_witness :
    2 ≤ ([5, 6, 7] : List Int).length
    ∧ (pull (pushSamples [] [5, 6, 7]) 2).1 = [5, 6] :=
  ⟨by decide, ring_buffer_fifo_zero_fill.1 [5, 6, 7] 2 (by decide)⟩

/-- C7: the level meter output is always in [0,1]; the empty buffer yields
exactly 0; and a buffer containing a sample of the maximum representable
magnitude (32767 = i16::MAX, the divisor the meter normalizes by; attained
by the samples 32767 and -32767) yields exactly 1. -/
theorem level_meter_range :
    ∀ samples : List Int,
      (0 ≤ chunk_peak_level_i16 samples ∧ chunk_peak_level_i16 samples ≤ 1)
      ∧ chunk_peak_level_i16 [] = 0
      ∧ ((32767 ∈ samples ∨ (-32767 : Int) ∈ samples) →
          chunk_peak_level_i16 samples = 1) := by
  intro samples
  refine ⟨⟨?_, ?_⟩, rfl, ?_⟩
  · unfold chunk_peak_level_i16
    split
    · exact le_refl 0
    · refine le_min ?_ (by norm_num)
      refine div_nonneg ?_ (by norm_num)
      exact_mod_cast peakFold_nonneg samples
  · unfold chunk_peak_level_i16
    split
    · norm_num
    · exact min_le_right _ _
  · intro h
    have hne : samples ≠ [] := by
      rcases h with hm | hm <;> exact List.ne_nil_of_mem hm
    have h32 : (32767 : Int) ≤ peakFold samples := by
      unfold peakFold
      rcases h with hm | hm
      · have := mem_le_foldl_peak samples 0 _ hm
        simpa [wrappingAbs16] using this
      · have := mem_le_foldl_peak samples 0 _ hm
        have habs : wrappingAbs16 (-32767) = 32767 := by
          norm_num [wrappingAbs16]
        rw [habs] at this
        exact this
    have h1q : (1 : ℚ) ≤ (peakFold samples : ℚ) / 32767 := by
      rw [le_div_iff₀ (by norm_num : (0 : ℚ) < 32767)]
      norm_num
      exact_mod_cast h32
    unfold chunk_peak_level_i16
    rw [if_neg (by simpa [List.isEmpty_iff] using hne)]
    exact min_eq_right h1q

/-- Witness for C7 at concrete input: a buffer holding the sample 32767
measures exactly 1. -/
theorem level_meter_range_witness :
    (32767 ∈ ([32767] : List Int) ∨ (-32767 : Int) ∈ ([32767] : List Int))
    ∧ chunk_peak_level_i16 [32767] = 1 :=
  ⟨Or.inl (by decide), (level_meter_range [32767]).2.2 (Or.inl (by decide))⟩

/-- C5: capture gate.  Not speaking: every chunk forwarded and the counter
reset.  Speaking: a chunk at or above the onset threshold increments the
counter, one below resets it to 0, and the chunk is forwarded exactly when
the updated counter has reached onset_min_chunks; consequently (for a
positive configured minimum) a below-threshold sequence is never
forwarded. -/
theorem capture_gate_spec :
    ∀ cfg : Config,
      (∀ (ctr : Nat) (peak : ℚ), gateStep cfg false ctr peak = (true, 0))
      ∧ (∀ (ctr : Nat) (peak : ℚ), cfg.onset_peak ≤ peak →
          (gateStep cfg true ctr peak).2 = ctr + 1)
      ∧ (∀ (ctr : Nat) (peak : ℚ), peak < cfg.onset_peak →
          (gateStep cfg true ctr peak).2 = 0)
      ∧ (∀ (ctr : Nat) (peak : ℚ),
          ((gateStep cfg true ctr peak).1 = true ↔
            cfg.onset_min_chunks ≤ (gateStep cfg true ctr peak).2))
      ∧ (0 < cfg.onset_min_chunks →
          ∀ chunks : List ℚ,
            chunks.all (fun q => decide (q < cfg.onset_peak)) = true →
            ∀ ctr : Nat,
              ((gateRun cfg ctr (chunks.map (fun q => (true, q)))).1.all
                (fun b => !b)) = true) := by
  intro cfg
  refine ⟨?_, ?_, ?_, ?_, ?_⟩
  · intro ctr peak
    rfl
  · intro ctr peak h
    simp [gateStep, h]
  · intro ctr peak h
    simp [gateStep, not_le.mpr h]
  · intro ctr peak
    simp [gateStep, Nat.not_lt]
  · intro hmin chunks
    induction chunks with
    | nil => intro _ ctr; rfl
    | cons q qs ih =>
      intro hall ctr
      simp only [List.all_cons, Bool.and_eq_true, decide_eq_true_eq] at hall
      have hq : q < cfg.onset_peak := hall.1
      have hrest := ih (by
        simp only [List.all_eq_true, decide_eq_true_eq]
        intro x hx
        have := (List.all_eq_true.mp hall.2) x hx
        simpa using this)
      simp only [List.map_cons, gateRun, gateStep, if_pos rfl, not_le.mpr hq,
        if_neg (not_le.mpr hq), List.all_cons, Bool.and_eq_true]
      constructor
      · simp [Nat.lt_of_lt_of_le hmin (Nat.le_refl _), hmin]
      · exact hrest 0

/-- Witness for C5 at concrete input: with the default config (threshold
0.22, minimum 2 chunks), a speaking-phase sequence of two quiet chunks is
never forwarded. -/
theorem capture_gate_spec_witness :
    0 < defaultCfg.onset_min_chunks
    ∧ ([(0 : ℚ), mkRat 1 10].all (fun q => decide (q < defaultCfg.onset_peak)) = true)
    ∧ ((gateRun defaultCfg 7 ([(0 : ℚ), mkRat 1 10].map (fun q => (true, q)))).1.all
        (fun b => !b)) = true :=
  ⟨by decide, by decide,
    (capture_gate_spec defaultCfg).2.2.2.2 (by decide) [(0 : ℚ), mkRat 1 10]
      (by decide) 7⟩

/-- C1: on speech-started with a response active or inflight, the handler
clears both flags, records the cancel timestamp, emits CancelResponse then
TruncateItem (item id, content 0, audio end 0) and clears the playback
buffer; with both flags clear it does nothing; hence two consecutive
speech-started events emit exactly one CancelResponse/TruncateItem pair. -/
theorem speech_started_interruption :
    ∀ (cfg : Config) (now now2 : Nat) (s : Sys) (i : String),
      s.st.last_assistant_item_id = some i →
      ((s.st.response_active = true ∨ s.st.response_inflight = true) →
        (handleEvent cfg now s .speechStarted).cmds =
          [Cmd.cancelResponse, Cmd.truncateItem i 0 0]
        ∧ (handleEvent cfg now s .speechStarted).sys.st.response_active = false
        ∧ (handleEvent cfg now s .speechStarted).sys.st.response_inflight = false
        ∧ (handleEvent cfg now s .speechStarted).sys.st.last_cancel_at = some now
        ∧ (handleEvent cfg now s .speechStarted).sys.spk = []
        ∧ runCmds cfg s [(now, .speechStarted), (now2, .speechStarted)] =
            [Cmd.cancelResponse, Cmd.truncateItem i 0 0])
      ∧ ((s.st.response_active = false ∧ s.st.response_inflight = false) →
        handleEvent cfg now s .speechStarted = { sys := s }) := by
  intro cfg now now2 s i hid
  constructor
  · intro h
    have hcond : (s.st.response_active || s.st.response_inflight) = true := by
      rcases h with h | h <;> simp [h]
    simp [handleEvent, runCmds, runStep, hcond, hid]
  · intro h
    simp [handleEvent, h.1, h.2]

/-- Witness for C1 at concrete input: a system mid-response with item id
"it" handles speech-started (and a second one) as claimed. -/
theorem speech_started_interruption_witness :
    (Sys.mk { response_active := true, last_assistant_item_id := some "it" }
      [9, 9]).st.last_assistant_item_id = some "it"
    ∧ ((handleEvent defaultCfg 3
          (Sys.mk { response_active := true, last_assistant_item_id := some "it" }
            [9, 9]) .speechStarted).cmds =
        [Cmd.cancelResponse, Cmd.truncateItem "it" 0 0]
      ∧ (handleEvent defaultCfg 3
          (Sys.mk { response_active := true, last_assistant_item_id := some "it" }
            [9, 9]) .speechStarted).sys.st.response_active = false
      ∧ (handleEvent defaultCfg 3
          (Sys.mk { response_active := true, last_assistant_item_id := some "it" }
            [9, 9]) .speechStarted).sys.st.response_inflight = false
      ∧ (handleEvent defaultCfg 3
          (Sys.mk { response_active := true, last_assistant_item_id := some "it" }
            [9, 9]) .speechStarted).sys.st.last_cancel_at = some 3
      ∧ (handleEvent defaultCfg 3
          (Sys.mk { response_active := true, last_assistant_item_id := some "it" }
            [9, 9]) .speechStarted).sys.spk = []
      ∧ runCmds defaultCfg
          (Sys.mk { response_active := true, last_assistant_item_id := some "it" }
            [9, 9]) [(3, .speechStarted), (4, .speechStarted)] =
          [Cmd.cancelResponse, Cmd.truncateItem "it" 0 0]) :=
  ⟨rfl,
    (speech_started_interruption defaultCfg 3 4
      (Sys.mk { response_active := true, last_assistant_item_id := some "it" }
        [9, 9]) "it" rfl).1 (Or.inl rfl)⟩

/-- C2: a response timer firing emits CreateResponse and sets
response_inflight exactly when both flags are false at expiry; a
late-firing timer whose precondition no longer holds is a strict no-op;
and two timers firing back to back emit exactly one CreateResponse. -/
theorem timer_mutual_exclusion :
    ∀ (cfg : Config) (now now2 : Nat) (s : Sys),
      ((s.st.response_inflight = false ∧ s.st.response_active = false) →
        (handleEvent cfg now s .timerFire).cmds = [Cmd.createResponse]
        ∧ (handleEvent cfg now s .timerFire).sys.st.response_inflight = true
        ∧ runCmds cfg s [(now, .timerFire), (now2, .timerFire)] =
            [Cmd.createResponse])
      ∧ ((s.st.response_inflight = true ∨ s.st.response_active = true) →
        handleEvent cfg now s .timerFire = { sys := s }) := by
  intro cfg now now2 s
  constructor
  · intro h
    simp [handleEvent, runCmds, runStep, h.1, h.2]
  · intro h
    rcases h with h | h <;> simp [handleEvent, h]

/-- Witness for C2 at concrete input: from the initial state (both flags
false), two back-to-back timer firings emit exactly one CreateResponse. -/
theorem timer_mutual_exclusion_witness :
    (initSys.st.response_inflight = false ∧ initSys.st.response_active = false)
    ∧ ((handleEvent defaultCfg 10 initSys .timerFire).cmds = [Cmd.createResponse]
      ∧ (handleEvent defaultCfg 10 initSys .timerFire).sys.st.response_inflight = true
      ∧ runCmds defaultCfg initSys [(10, .timerFire), (11, .timerFire)] =
          [Cmd.createResponse]) :=
  ⟨⟨rfl, rfl⟩,
    (timer_mutual_exclusion defaultCfg 10 11 initSys).1 ⟨rfl, rfl⟩⟩

/-- C4: the buffer-committed handler schedules exactly one response timer,
with the short delay when last_user ends in terminal punctuation and the
long delay otherwise (in particular for the empty utterance), and neither
emits a command nor changes the state. -/
theorem adaptive_delay_selection :
    ∀ (cfg : Config) (now : Nat) (s : Sys),
      ((strEndsWith s.st.last_user "." || strEndsWith s.st.last_user "!" ||
          strEndsWith s.st.last_user "?") = true →
        (handleEvent cfg now s .bufferCommitted).timers =
          [cfg.resp_delay_short_ms])
      ∧ ((strEndsWith s.st.last_user "." || strEndsWith s.st.last_user "!" ||
          strEndsWith s.st.last_user "?") = false →
        (handleEvent cfg now s .bufferCommitted).timers =
          [cfg.resp_delay_long_ms])
      ∧ (s.st.last_user = "" →
        (handleEvent cfg now s .bufferCommitted).timers =
          [cfg.resp_delay_long_ms])
      ∧ (handleEvent cfg now s .bufferCommitted).sys = s
      ∧ (handleEvent cfg now s .bufferCommitted).cmds = [] := by
  intro cfg now s
  refine ⟨?_, ?_, ?_, ?_, ?_⟩
  · intro h
    simp [handleEvent, h]
  · intro h
    simp [handleEvent, h]
  · intro h
    simp [handleEvent, h, strEndsWith]
  · rfl
  · rfl

/-- Witness for C4 at concrete inputs: "ok?" schedules the short delay;
"ok so" and the empty utterance schedule the long delay. -/
theorem adaptive_delay_selection_witness :
    ((strEndsWith "ok?" "." || strEndsWith "ok?" "!" ||
        strEndsWith "ok?" "?") = true
      ∧ (handleEvent defaultCfg 0 (Sys.mk { last_user := "ok?" } [])
          .bufferCommitted).timers = [defaultCfg.resp_delay_short_ms])
    ∧ ((strEndsWith "ok so" "." || strEndsWith "ok so" "!" ||
        strEndsWith "ok so" "?") = false
      ∧ (handleEvent defaultCfg 0 (Sys.mk { last_user := "ok so" } [])
          .bufferCommitted).timers = [defaultCfg.resp_delay_long_ms])
    ∧ (handleEvent defaultCfg 0 (Sys.mk { last_user := "" } [])
        .bufferCommitted).timers = [defaultCfg.resp_delay_long_ms] :=
  ⟨⟨by decide,
    (adaptive_delay_selection defaultCfg 0 (Sys.mk { last_user := "ok?" } [])).1
      (by decide)⟩,
   ⟨by decide,
    (adaptive_delay_selection defaultCfg 0 (Sys.mk { last_user := "ok so" } [])).2.1
      (by decide)⟩,
   (adaptive_delay_selection defaultCfg 0 (Sys.mk { last_user := "" } [])).2.2.1
      rfl⟩

/-- C9: the error handler never changes the state, never emits a command
and never schedules a timer; the error line is suppressed exactly for code
response_cancel_not_active and surfaced for every other code. -/
theorem error_suppression :
    ∀ (cfg : Config) (now : Nat) (s : Sys) (code msg : String),
      (handleEvent cfg now s (.error code msg)).sys = s
      ∧ (handleEvent cfg now s (.error code msg)).cmds = []
      ∧ (handleEvent cfg now s (.error code msg)).timers = []
      ∧ (code = "response_cancel_not_active" →
          (handleEvent cfg now s (.error code msg)).errs = [])
      ∧ (code ≠ "response_cancel_not_active" →
          (handleEvent cfg now s (.error code msg)).errs = [(code, msg)]) := by
  intro cfg now s code msg
  by_cases hc : code = "response_cancel_not_active" <;>
    simp [handleEvent, hc]

/-- Witness for C9 at concrete inputs: the benign cancel-race code is
suppressed, another code is surfaced, and the state is untouched. -/
theorem error_suppression_witness :
    (handleEvent defaultCfg 0 initSys
      (.error "response_cancel_not_active" "x")).errs = []
    ∧ ("rate_limit" ≠ "response_cancel_not_active"
      ∧ (handleEvent defaultCfg 0 initSys
          (.error "rate_limit" "slow down")).errs = [("rate_limit", "slow down")])
    ∧ (handleEvent defaultCfg 0 initSys (.error "rate_limit" "slow down")).sys =
        initSys :=
  ⟨(error_suppression defaultCfg 0 initSys "response_cancel_not_active" "x").2.2.2.1
      rfl,
   ⟨by decide,
    (error_suppression defaultCfg 0 initSys "rate_limit" "slow down").2.2.2.2
      (by decide)⟩,
   (error_suppression defaultCfg 0 initSys "rate_limit" "slow down").1⟩

/-- C3: on a transcription delta the text is appended to the partial
buffer, and the interruption sequence (cancel, truncate when an item id
exists, clear playback buffer, clear flags, record cancel timestamp, clear
partial buffer) runs exactly when the assistant is speaking, the cooldown
since last_cancel_at has elapsed (or no cancel was issued) and the
lower-cased accumulated text matches the keyword set; and once a delta
triggers at time `now`, a later keyword delta at `now2` with
`now2 - now < cancel_cooldown_ms` emits nothing even though intervening
assistant audio re-set response_active. -/
theorem barge_in_keyword :
    ∀ (cfg : Config) (now : Nat) (s : Sys) (d : String),
      (((s.st.response_active || s.st.response_inflight) &&
          cooldownOk cfg now s.st.last_cancel_at &&
          hotMatch (strToLower (s.st.last_user_part ++ d))) = true →
        (handleEvent cfg now s (.transcriptionDelta (some d))).cmds =
          Cmd.cancelResponse ::
            (match s.st.last_assistant_item_id with
             | some i => [Cmd.truncateItem i 0 0]
             | none => [])
        ∧ (handleEvent cfg now s (.transcriptionDelta (some d))).sys.st.response_active = false
        ∧ (handleEvent cfg now s (.transcriptionDelta (some d))).sys.st.response_inflight = false
        ∧ (handleEvent cfg now s (.transcriptionDelta (some d))).sys.st.last_cancel_at = some now
        ∧ (handleEvent cfg now s (.transcriptionDelta (some d))).sys.st.last_user_part = ""
        ∧ (handleEvent cfg now s (.transcriptionDelta (some d))).sys.spk = [])
      ∧ (((s.st.response_active || s.st.response_inflight) &&
          cooldownOk cfg now s.st.last_cancel_at &&
          hotMatch (strToLower (s.st.last_user_part ++ d))) = false →
        handleEvent cfg now s (.transcriptionDelta (some d)) =
          { sys := { s with st :=
              { s.st with last_user_part := s.st.last_user_part ++ d } } })
      ∧ (((s.st.response_active || s.st.response_inflight) &&
          cooldownOk cfg now s.st.last_cancel_at &&
          hotMatch (strToLower (s.st.last_user_part ++ d))) = true →
        ∀ (a : List Int) (d2 : String) (now1 now2 : Nat),
          now2 - now < cfg.cancel_cooldown_ms →
          (handleEvent cfg now2
            ((handleEvent cfg now1
              ((handleEvent cfg now s (.transcriptionDelta (some d))).sys)
              (.audioDelta a)).sys)
            (.transcriptionDelta (some d2))).cmds = []) := by
  intro cfg now s d
  refine ⟨?_, ?_, ?_⟩
  · intro h
    simp [handleEvent, h]
  · intro h
    simp [handleEvent, h]
  · intro h a d2 now1 now2 hcool
    have hck : cooldownOk cfg now2 (some now) = false := by
      simp [cooldownOk, Nat.not_le.mpr hcool]
    simp [handleEvent, h, hck]

/-- Witness for C3 at concrete input: with a response active and no prior
cancel, the delta "please STOP" triggers the interruption and clears the
state, and a keyword delta 100 ms later (inside the 400 ms cooldown, with
assistant audio re-arrived in between) emits nothing. -/
theorem barge_in_keyword_witness :
    (((Sys.mk { response_active := true, last_assistant_item_id := some "it" }
        [7]).st.response_active ||
      (Sys.mk { response_active := true, last_assistant_item_id := some "it" }
        [7]).st.response_inflight) &&
      cooldownOk defaultCfg 1000
        (Sys.mk { response_active := true, last_assistant_item_id := some "it" }
          [7]).st.last_cancel_at &&
      hotMatch (strToLower
        ((Sys.mk { response_active := true, last_assistant_item_id := some "it" }
          [7]).st.last_user_part ++ "please STOP"))) = true
    ∧ (1100 - 1000 < defaultCfg.cancel_cooldown_ms)
    ∧ ((handleEvent defaultCfg 1000
          (Sys.mk { response_active := true, last_assistant_item_id := some "it" }
            [7]) (.transcriptionDelta (some "please STOP"))).cmds =
        [Cmd.cancelResponse, Cmd.truncateItem "it" 0 0])
    ∧ ((handleEvent defaultCfg 1100
        ((handleEvent defaultCfg 1050
          ((handleEvent defaultCfg 1000
            (Sys.mk { response_active := true, last_assistant_item_id := some "it" }
              [7]) (.transcriptionDelta (some "please STOP"))).sys)
          (.audioDelta [5])).sys)
        (.transcriptionDelta (some " wait"))).cmds = []) :=
  ⟨by decide, by decide,
    ((barge_in_keyword defaultCfg 1000
      (Sys.mk { response_active := true, last_assistant_item_id := some "it" }
        [7]) "please STOP").1 (by decide)).1,
    (barge_in_keyword defaultCfg 1000
      (Sys.mk { response_active := true, last_assistant_item_id := some "it" }
        [7]) "please STOP").2.2 (by decide) [5] " wait" 1050 1100 (by decide)⟩

/-- C10: an interruption performed while last_assistant_item_id is None
(whether by speech-started or by keyword barge-in) still emits
CancelResponse, still clears both flags and the playback buffer, but emits
no TruncateItem. -/
theorem interruption_without_item_id :
    ∀ (cfg : Config) (now : Nat) (s : Sys),
      s.st.last_assistant_item_id = none →
      ((s.st.response_active = true ∨ s.st.response_inflight = true) →
        (handleEvent cfg now s .speechStarted).cmds = [Cmd.cancelResponse]
        ∧ (handleEvent cfg now s .speechStarted).sys.st.response_active = false
        ∧ (handleEvent cfg now s .speechStarted).sys.st.response_inflight = false
        ∧ (handleEvent cfg now s .speechStarted).sys.spk = [])
      ∧ (∀ d : String,
        ((s.st.response_active || s.st.response_inflight) &&
          cooldownOk cfg now s.st.last_cancel_at &&
          hotMatch (strToLower (s.st.last_user_part ++ d))) = true →
        (handleEvent cfg now s (.transcriptionDelta (some d))).cmds =
          [Cmd.cancelResponse]
        ∧ (handleEvent cfg now s (.transcriptionDelta (some d))).sys.st.response_active = false
        ∧ (handleEvent cfg now s (.transcriptionDelta (some d))).sys.st.response_inflight = false
        ∧ (handleEvent cfg now s (.transcriptionDelta (some d))).sys.spk = []) := by
  intro cfg now s hid
  constructor
  · intro h
    have hcond : (s.st.response_active || s.st.response_inflight) = true := by
      rcases h with h | h <;> simp [h]
    simp [handleEvent, hcond, hid]
  · intro d h
    simp [handleEvent, h, hid]

/-- Witness for C10 at concrete input: with a response inflight but no
assistant item recorded yet, speech-started and a keyword delta each emit
only CancelResponse. -/
theorem interruption_without_item_id_witness :
    (Sys.mk { response_inflight := true } [3]).st.last_assistant_item_id = none
    ∧ ((handleEvent defaultCfg 9 (Sys.mk { response_inflight := true } [3])
          .speechStarted).cmds = [Cmd.cancelResponse]
      ∧ (handleEvent defaultCfg 9 (Sys.mk { response_inflight := true } [3])
          .speechStarted).sys.st.response_active = false
      ∧ (handleEvent defaultCfg 9 (Sys.mk { response_inflight := true } [3])
          .speechStarted).sys.st.response_inflight = false
      ∧ (handleEvent defaultCfg 9 (Sys.mk { response_inflight := true } [3])
          .speechStarted).sys.spk = [])
    ∧ ((handleEvent defaultCfg 9 (Sys.mk { response_inflight := true } [3])
          (.transcriptionDelta (some "hey stop"))).cmds = [Cmd.cancelResponse]
      ∧ (handleEvent defaultCfg 9 (Sys.mk { response_inflight := true } [3])
          (.transcriptionDelta (some "hey stop"))).sys.st.response_active = false
      ∧ (handleEvent defaultCfg 9 (Sys.mk { response_inflight := true } [3])
          (.transcriptionDelta (some "hey stop"))).sys.st.response_inflight = false
      ∧ (handleEvent defaultCfg 9 (Sys.mk { response_inflight := true } [3])
          (.transcriptionDelta (some "hey stop"))).sys.spk = []) :=
  ⟨rfl,
    (interruption_without_item_id defaultCfg 9
      (Sys.mk { response_inflight := true } [3]) rfl).1 (Or.inr rfl),
    (interruption_without_item_id defaultCfg 9
      (Sys.mk { response_inflight := true } [3]) rfl).2 "hey stop" (by decide)⟩

/-- Only the audio-delta handler can turn response_active on: after any
other event response_active can hold only if it held before. -/
theorem active_provenance_step (cfg : Config) (now : Nat) (s : Sys) (e : Event) :
    (handleEvent cfg now s e).sys.st.response_active = true →
    s.st.response_active = true ∨ isAudioDelta e = true := by
  intro h
  cases e <;> simp only [handleEvent] at h
  case audioDelta samples => exact Or.inr rfl
  all_goals repeat' split at h
  all_goals first | exact Or.inl h | simp at h

/-- Along a run whose audio-delta events are all solicited (arrive while a
flag is set), the ever-inflight sample implies both tracked flags. -/
theorem histRun_guarded :
    ∀ (cfg : Config) (es : List (Nat × Event)) (s : Sys) (ever : Bool),
      guardedB cfg s es = true →
      (s.st.response_active = true → ever = true) →
      (s.st.response_inflight = true → ever = true) →
      ((histRun cfg (s, ever) es).1.st.response_active = true →
        (histRun cfg (s, ever) es).2 = true)
      ∧ ((histRun cfg (s, ever) es).1.st.response_inflight = true →
        (histRun cfg (s, ever) es).2 = true) := by
  intro cfg es
  induction es with
  | nil =>
    intro s ever _ ha hi
    exact ⟨ha, hi⟩
  | cons te tes ih =>
    intro s ever hg ha hi
    simp only [guardedB, Bool.and_eq_true] at hg
    have hstep : histRun cfg (s, ever) (te :: tes) =
        histRun cfg (runStep cfg s te,
          ever || (runStep cfg s te).st.response_inflight) tes := rfl
    rw [hstep]
    refine ih (runStep cfg s te)
      (ever || (runStep cfg s te).st.response_inflight) hg.2 ?_ ?_
    · intro hact
      rcases active_provenance_step cfg te.1 s te.2 hact with hprev | haud
      · simp [ha hprev]
      · rcases Bool.or_eq_true _ _ |>.mp (by
          have := hg.1
          simp only [haud, Bool.not_true, Bool.false_or] at this
          exact this) with hb | hb
        · simp [hi hb]
        · simp [ha hb]
    · intro hinf
      simp [hinf]

/-- C8 counterexample: from the initial state, the single inbound sequence
consisting of one (unsolicited) audio-delta event leaves response_active
true although response_inflight was false in every state of the run, so
response_active does not imply that response_inflight was ever true over
arbitrary inbound sequences. -/
theorem active_without_inflight_counterexample :
    (histRun defaultCfg (initSys, initSys.st.response_inflight)
      [((0 : Nat), Event.audioDelta [1])]).1.st.response_active = true
    ∧ (histRun defaultCfg (initSys, initSys.st.response_inflight)
      [((0 : Nat), Event.audioDelta [1])]).2 = false := by
  exact ⟨rfl, rfl⟩

/-- C8 (amended): over inbound sequences in which every audio-delta event
arrives while response_inflight or response_active is set (the audio is
solicited), any reachable state with response_active true had
response_inflight true at some point of the run; and the terminal handlers
(audio-done, response-done — which also covers a remotely confirmed
cancel — speech-started interruption, and keyword interruption) clear
response_active and response_inflight together in the same handler. -/
theorem flag_lifecycle_invariant :
    ∀ (cfg : Config) (es : List (Nat × Event)),
      guardedB cfg initSys es = true →
      ((histRun cfg (initSys, initSys.st.response_inflight) es).1.st.response_active = true →
        (histRun cfg (initSys, initSys.st.response_inflight) es).2 = true)
      ∧ (∀ (now : Nat) (s : Sys),
          (handleEvent cfg now s .audioDone).sys.st.response_active = false
          ∧ (handleEvent cfg now s .audioDone).sys.st.response_inflight = false
          ∧ (handleEvent cfg now s .responseDone).sys.st.response_active = false
          ∧ (handleEvent cfg now s .responseDone).sys.st.response_inflight = false)
      ∧ (∀ (now : Nat) (s : Sys),
          (s.st.response_active || s.st.response_inflight) = true →
          (handleEvent cfg now s .speechStarted).sys.st.response_active = false
          ∧ (handleEvent cfg now s .speechStarted).sys.st.response_inflight = false)
      ∧ (∀ (now : Nat) (s : Sys) (d : String),
          ((s.st.response_active || s.st.response_inflight) &&
            cooldownOk cfg now s.st.last_cancel_at &&
            hotMatch (strToLower (s.st.last_user_part ++ d))) = true →
          (handleEvent cfg now s (.transcriptionDelta (some d))).sys.st.response_active = false
          ∧ (handleEvent cfg now s (.transcriptionDelta (some d))).sys.st.response_inflight = false) := by
  intro cfg es hg
  refine ⟨?_, ?_, ?_, ?_⟩
  · exact (histRun_guarded cfg es initSys initSys.st.response_inflight hg
      (by intro h; exact absurd h (by decide))
      (by intro h; exact h)).1
  · intro now s
    exact ⟨rfl, rfl, rfl, rfl⟩
  · intro now s h
    simp [handleEvent, h]
  · intro now s d h
    simp [handleEvent, h]

/-- Witness for C8 (amended) at concrete input: a run where the timer
fires first (setting response_inflight) and the audio-delta is therefore
solicited satisfies the guard and the ever-inflight conclusion. -/
theorem flag_lifecycle_invariant_witness :
    guardedB defaultCfg initSys
      [((0 : Nat), Event.timerFire), ((1 : Nat), Event.audioDelta [1])] = true
    ∧ (histRun defaultCfg (initSys, initSys.st.response_inflight)
        [((0 : Nat), Event.timerFire), ((1 : Nat), Event.audioDelta [1])]).2 = true :=
  ⟨by decide,
    (flag_lifecycle_invariant defaultCfg
      [((0 : Nat), Event.timerFire), ((1 : Nat), Event.audioDelta [1])]
      (by decide)).1 (by decide)⟩

end Parlar
